import Mathlib

/-!
Shallow embedding of the core extraction engine of
`api/xhs_downloader_api/xhs.py` (class `XHSDownloaderAPI`): the tokenizing
normalizer, the value parser, the note locator, the media extractor, the URL
canonicalizer and the regex fallback scanner, together with theorems settling
the frozen claims about them.

Modelling conventions:
* Python character predicates (`str.isalnum`, `\w`, `str.lower`, whitespace)
  are modelled at ASCII granularity; every concrete input used below is ASCII.
* Python `dict` values produced by `json.loads` are modelled as ordered
  association lists (`List (String × JValue)`), matching insertion order
  semantics of CPython dicts; duplicate keys are overwritten in place as
  `json.loads` does.
* Python floats are not interpreted: a JSON number with a fraction or exponent
  is kept as its uninterpreted literal (`JValue.fnum`), which is faithful to
  every use site (the code only ever tests `isinstance(value, (str, int))`).
* Unbounded `while` loops and regex scans are modelled as fuel-indexed
  recursion; fuel bounds are part of the totality statements.
-/

/-- The generic value tree produced by `json.loads` on the normalised payload
(`dict` / `list` / `str` / `int` / `float` / `bool` / `None`). -/
inductive JValue where
  | null : JValue
  | bool (b : Bool) : JValue
  | num (n : Int) : JValue
  | fnum (lit : String) : JValue
  | str (s : String) : JValue
  | arr (items : List JValue) : JValue
  | obj (kvs : List (String × JValue)) : JValue

namespace JValue

/-- Python `d.get(k)` on a dict modelled as the first binding of `k`. -/
def jget : JValue → String → Option JValue
  | obj kvs, k => kvs.lookup k
  | _, _ => none

/-- Python `isinstance(d.get(k), dict)` combined with the extraction of the
dict: `some kvs` exactly when the field is present and is an object. -/
def jgetObj : JValue → String → Option (List (String × JValue))
  | v, k =>
    match jget v k with
    | some (obj kvs) => some kvs
    | _ => none

/-- Python `k in d` (key containment) on an object's binding list. -/
def hasKey (kvs : List (String × JValue)) (k : String) : Bool :=
  kvs.any (fun kv => kv.1 == k)

/-- Python `isinstance(v, dict)`. -/
def isObj : JValue → Bool
  | obj _ => true
  | _ => false

end JValue

/-! ## Character and list utilities shared by the components -/

/-- Python `needle == hay[:len(needle)]`, i.e. `str.startswith`. -/
def startsWithL : List Char → List Char → Bool
  | [], _ => true
  | _ :: _, [] => false
  | n :: ns, h :: hs => n == h && startsWithL ns hs

/-- Index scan behind Python `str.find`: first index `≥ base` (in the original
string) at which `needle` occurs in `hay`. -/
def findSubAux (needle : List Char) : List Char → Nat → Option Nat
  | hay, i =>
    if startsWithL needle hay then some i
    else
      match hay with
      | [] => none
      | _ :: t => findSubAux needle t (i + 1)

/-- Python `hay.find(needle)` (`none` for `-1`). -/
def findSubL (hay needle : List Char) : Option Nat :=
  findSubAux needle hay 0

/-- Python `hay.find(needle, start)`. -/
def findSubFromL (hay needle : List Char) (start : Nat) : Option Nat :=
  (findSubAux needle (hay.drop start) 0).map (· + start)

/-- Python `needle in hay` on strings. -/
def containsSubL (hay needle : List Char) : Bool :=
  (findSubL hay needle).isSome

/-- `needle in hay` lifted to `String`. -/
def containsSub (hay needle : String) : Bool :=
  containsSubL hay.data needle.data

/-- ASCII model of Python `str.lower`. -/
def toLowerL (s : List Char) : List Char :=
  s.map Char.toLower

/-- Python `str.split(sep)` for a single-character separator: every occurrence
splits, empty pieces are kept. -/
def splitOnCharL (sep : Char) : List Char → List (List Char)
  | [] => [[]]
  | c :: rest =>
    let r := splitOnCharL sep rest
    if c == sep then [] :: r
    else
      match r with
      | [] => [[c]]
      | piece :: pieces => (c :: piece) :: pieces

/-- Python `sep.join(parts)` for a single-character separator. -/
def joinCharL (sep : Char) : List (List Char) → List Char
  | [] => []
  | [p] => p
  | p :: ps => p ++ sep :: joinCharL sep ps

/-- Python `re.split(r"[!?]", token)[0]`: the prefix up to the first `!` or
`?`. -/
def truncAtBangQ : List Char → List Char
  | [] => []
  | c :: rest => if c == '!' || c == '?' then [] else c :: truncAtBangQ rest

/-- ASCII model of the whitespace class stripped by Python `str.strip`. -/
def isPyWs (c : Char) : Bool :=
  c == ' ' || c == '\t' || c == '\n' || c == '\r' || c == '\x0b' || c == '\x0c'

/-- Python `str.strip()`. -/
def stripWsL (s : List Char) : List Char :=
  (s.dropWhile isPyWs).reverse.dropWhile isPyWs |>.reverse

/-- The order-preserving deduplication loop of `_parse_post_details`
(lines 227–234): `seen` collects emitted URLs, later duplicates are dropped. -/
def dedupAux (seen : List String) : List String → List String
  | [] => []
  | x :: xs => if x ∈ seen then dedupAux seen xs else x :: dedupAux (x :: seen) xs

/-- Deduplicate preserving first occurrence (the `unique_fallback` loop). -/
def dedupFirst (l : List String) : List String :=
  dedupAux [] l

/-! ## URL canonicalizer (`_transform_xhs_cdn_url`) and media predicate -/

/-- `XHSDownloaderAPI._transform_xhs_cdn_url` restricted to string inputs
(the `None` early return is only reachable from non-string arguments). -/
def transform_xhs_cdn_url (url : String) : String :=
  if ¬ containsSub url "xhscdn.com" then url
  else
    let lower := String.mk (toLowerL url.data)
    if containsSub lower "video" || containsSub lower "sns-video" then url
    else
      let parts := splitOnCharL '/' url.data
      if parts.length ≤ 5 then url
      else
        let token := truncAtBangQ (joinCharL '/' (parts.drop 5))
        String.mk ("https://ci.xiaohongshu.com/".data ++ token)

/-- `XHSDownloaderAPI._is_valid_media_url` on string inputs. -/
def is_valid_media_url (url : String) : Bool :=
  let lower := String.mk (toLowerL url.data)
  [".jpg", ".jpeg", ".png", ".gif", ".mp4", ".webm",
   "xhscdn.com", "xiaohongshu.com"].any (fun ext => containsSub lower ext)

/-! ## Tokenizing normalizer (`_normalise_json_payload`) -/

/-- Python `char.isalnum() or char in {"_", "$"}` (ASCII granularity). -/
def isIdentChar (c : Char) : Bool :=
  c.isAlphanum || c == '_' || c == '$'

/-- The boundary test on `prev_char` / `next_char`, where the empty sentinel
used at the ends of the payload is modelled as `none`. -/
def isIdentOpt : Option Char → Bool
  | none => false
  | some c => isIdentChar c

/-- The token table of `_normalise_json_payload`, in source order. -/
def normTokens : List (List Char × List Char) :=
  [("+Infinity".data, "null".data), ("-Infinity".data, "null".data),
   ("Infinity".data, "null".data), ("undefined".data, "null".data),
   ("NaN".data, "null".data)]

/-- The inner `for token, replacement in tokens` loop: the first token that
occurs at the current position with non-identifier characters on both sides. -/
def findTokenMatch (prev : Option Char) (rest : List Char) :
    Option (List Char × List Char) :=
  normTokens.find? (fun tr =>
    startsWithL tr.1 rest && !(isIdentOpt prev) &&
      !(isIdentOpt (rest.drop tr.1.length).head?))

/-- The `while i < length` scan of `_normalise_json_payload`, as fuel-indexed
recursion: one unit of fuel per loop iteration, `none` when fuel runs out
before the input is consumed.  State: inside-string flag, escape flag, active
quote character and the previously consumed character (`payload[i-1]`). -/
def normScan : Nat → Bool → Bool → Char → Option Char → List Char →
    Option (List Char)
  | _, _, _, _, _, [] => some []
  | 0, _, _, _, _, _ :: _ => none
  | Nat.succ fuel, inStr, esc, quote, prev, c :: rest =>
    if inStr then
      let st : Bool × Bool :=
        if esc then (true, false)
        else if c == '\\' then (true, true)
        else if c == quote then (false, false)
        else (true, false)
      (normScan fuel st.1 st.2 quote (some c) rest).map (c :: ·)
    else if c == '"' || c == '\'' then
      (normScan fuel true esc c (some c) rest).map (c :: ·)
    else
      match findTokenMatch prev (c :: rest) with
      | some (tok, repl) =>
        (normScan fuel false esc quote tok.getLast?
            ((c :: rest).drop tok.length)).map (fun out => repl ++ out)
      | none => (normScan fuel false esc quote (some c) rest).map (c :: ·)

/-- ASCII model of the regex whitespace class `\s`. -/
def isRegexWs (c : Char) : Bool := isPyWs c

/-- Match of `\s*(?:undefined|NaN|[+-]?Infinity)` directly after a colon,
returning the number of characters consumed after the colon. -/
def matchWsToken (rest : List Char) : Option Nat :=
  let n := (rest.takeWhile isRegexWs).length
  let t := rest.drop n
  if startsWithL "undefined".data t then some (n + 9)
  else if startsWithL "NaN".data t then some (n + 3)
  else
    match t with
    | '+' :: t2 => if startsWithL "Infinity".data t2 then some (n + 9) else none
    | '-' :: t2 => if startsWithL "Infinity".data t2 then some (n + 9) else none
    | _ => if startsWithL "Infinity".data t then some (n + 8) else none

/-- Fuel-indexed body of the leftmost, non-overlapping replacement of
`:\s*(?:undefined|NaN|[+-]?Infinity)` by `: null`; every iteration consumes at
least one character, so fuel equal to the input length never runs out (the
fuel-exhausted clause copies the remaining input verbatim). -/
def invalidJsonSubF : Nat → List Char → List Char
  | 0, l => l
  | _, [] => []
  | Nat.succ f, c :: rest =>
    if c == ':' then
      match matchWsToken rest with
      | some n => ": null".data ++ invalidJsonSubF f (rest.drop n)
      | none => c :: invalidJsonSubF f rest
    else c :: invalidJsonSubF f rest

/-- `INVALID_JSON_VALUE_PATTERN.sub(": null", payload)`. -/
def invalidJsonSub (l : List Char) : List Char :=
  invalidJsonSubF l.length l

/-- `_normalise_json_payload` on character lists: fast path when none of the
trigger substrings occur, otherwise the regex pre-pass followed by the scan
loop run with fuel equal to the pre-passed payload length.  The `getD`
default is unreachable (`normScan_total` below). -/
def normalise_json_payloadL (p : List Char) : List Char :=
  if !(containsSubL p "undefined".data) && !(containsSubL p "Infinity".data)
      && !(containsSubL p "NaN".data) then p
  else
    let pre := invalidJsonSub p
    (normScan pre.length false false '"' none pre).getD pre

/-- `XHSDownloaderAPI._normalise_json_payload`. -/
def normalise_json_payload (p : String) : String :=
  String.mk (normalise_json_payloadL p.data)

/-! ## Fallback scanner helpers (`_decode_unicode_sequences`) -/

/-- Hexadecimal digit value (the `[0-9a-fA-F]` class), via code points:
`0`–`9` are 48–57, `A`–`F` are 65–70, `a`–`f` are 97–102. -/
def hexVal (c : Char) : Option Nat :=
  let n := c.toNat
  if 48 ≤ n && n ≤ 57 then some (n - 48)
  else if 97 ≤ n && n ≤ 102 then some (n - 87)
  else if 65 ≤ n && n ≤ 70 then some (n - 55)
  else none

/-- Value of four hexadecimal digits (most significant first). -/
def hexQuad (a b c d : Nat) : Nat :=
  4096 * a + 256 * b + 16 * c + d

/-- Python `text.replace("\\/", "/")`: left-to-right, non-overlapping. -/
def replaceBackslashSlash : List Char → List Char
  | '\\' :: '/' :: rest => '/' :: replaceBackslashSlash rest
  | c :: rest => c :: replaceBackslashSlash rest
  | [] => []

/-- Fuel-indexed `UNICODE_ESCAPE_PATTERN.sub`: each `\uXXXX` escape becomes
its decoded character (`Char.ofNat` models `chr` at the code points exercised
here); fuel equal to the input length never runs out. -/
def decodeUnicodeEscapesF : Nat → List Char → List Char
  | 0, l => l
  | _, [] => []
  | Nat.succ f, '\\' :: 'u' :: h1 :: h2 :: h3 :: h4 :: rest =>
    match hexVal h1, hexVal h2, hexVal h3, hexVal h4 with
    | some a, some b, some c, some d =>
      Char.ofNat (hexQuad a b c d) :: decodeUnicodeEscapesF f rest
    | _, _, _, _ =>
      '\\' :: decodeUnicodeEscapesF f ('u' :: h1 :: h2 :: h3 :: h4 :: rest)
  | Nat.succ f, c :: rest => c :: decodeUnicodeEscapesF f rest

/-- `XHSDownloaderAPI._decode_unicode_sequences`. -/
def decode_unicode_sequences (s : List Char) : List Char :=
  let r := replaceBackslashSlash s
  decodeUnicodeEscapesF r.length r

example : normalise_json_payloadL "[undefined,+Infinity,-Infinity,NaN]".data
    = "[null,null,null,null]".data := by rfl
example : normalise_json_payload "\x7b\"xNaN\": 1\x7d" = "\x7b\"xNaN\": 1\x7d" := by rfl

/-! ## Fallback scanner regexes

`IMG_TAG_PATTERN` is compiled from the *raw* string
`<img[^>]+src\\s*=\\s*['\"]([^'\"]+)['\"][^>]*>`, so the regex engine sees
`\\` as an escaped literal backslash followed by `s*` (a run of letter `s`),
not the whitespace class `\s`.  The model below reproduces exactly that
compiled pattern, including case-insensitivity and greedy backtracking over
`[^>]+`. -/

/-- Case-insensitive literal match returning the remainder. -/
def matchLitCI : List Char → List Char → Option (List Char)
  | [], s => some s
  | _ :: _, [] => none
  | l :: ls, c :: cs => if c.toLower == l.toLower then matchLitCI ls cs else none

/-- The part of `IMG_TAG_PATTERN` after the `[^>]+` gap:
`src` `\` `s*` `=` `\` `s*` `['"]` `([^'"]+)` `['"]` `[^>]*` `>`
(each quantifier here is deterministic once the gap is fixed). -/
def imgAfterGap (s : List Char) : Option (List Char × List Char) :=
  match matchLitCI "src".data s with
  | none => none
  | some s1 =>
    match s1 with
    | '\\' :: s2 =>
      let s3 := s2.dropWhile (fun c => c == 's' || c == 'S')
      match s3 with
      | '=' :: s4 =>
        match s4 with
        | '\\' :: s5 =>
          let s6 := s5.dropWhile (fun c => c == 's' || c == 'S')
          match s6 with
          | q :: s7 =>
            if q == '\'' || q == '"' then
              let cap := s7.takeWhile (fun c => !(c == '\'' || c == '"'))
              if cap.isEmpty then none
              else
                match s7.drop cap.length with
                | q2 :: s8 =>
                  if q2 == '\'' || q2 == '"' then
                    match s8.drop ((s8.takeWhile (fun c => !(c == '>'))).length) with
                    | '>' :: s9 => some (cap, s9)
                    | _ => none
                  else none
                | [] => none
            else none
          | [] => none
        | _ => none
      | _ => none
    | _ => none

/-- Greedy backtracking over the `[^>]+` gap: gap lengths are tried from the
longest `>`-free prefix down to one. -/
def imgGapTry : Nat → List Char → Option (List Char × List Char)
  | 0, _ => none
  | Nat.succ k, s =>
    match imgAfterGap (s.drop (Nat.succ k)) with
    | some r => some r
    | none => imgGapTry k s

/-- One attempted `IMG_TAG_PATTERN` match at the head of `s`, returning the
captured group and the remainder after the match. -/
def imgMatchAt (s : List Char) : Option (List Char × List Char) :=
  match matchLitCI "<img".data s with
  | none => none
  | some s1 => imgGapTry ((s1.takeWhile (fun c => !(c == '>'))).length) s1

/-- `IMG_TAG_PATTERN.finditer`: leftmost, non-overlapping scan. -/
def imgScanF : Nat → List Char → List (List Char)
  | 0, _ => []
  | _, [] => []
  | Nat.succ f, c :: t =>
    match imgMatchAt (c :: t) with
    | some (cap, rest) => cap :: imgScanF f rest
    | none => imgScanF f t

/-- The character class of `MEDIA_URL_PATTERN`:
`[\w\-._~:/?#\[\]@!$&'()*+,;=%]` (ASCII `\w`). -/
def isMediaClassChar (c : Char) : Bool :=
  c.isAlphanum || c == '_' ||
    ['-', '.', '~', ':', '/', '?', '#', '[', ']', '@', '!', '$', '&', '\'',
     '(', ')', '*', '+', ',', ';', '=', '%'].contains c

/-- The media extension alternation of `MEDIA_URL_PATTERN`, in source order. -/
def mediaExts : List (List Char) :=
  ["jpg", "jpeg", "png", "gif", "mp4", "avi", "mov", "webm", "wmv", "f4v",
   "swf", "mpg", "mpeg", "asf", "3gp", "3g2", "mkv", "webp", "heic",
   "heif"].map String.data

/-- First extension (in alternation order) matching case-insensitively at the
head of `s`: its length is the number of matched characters. -/
def matchExtCI (s : List Char) : Option Nat :=
  mediaExts.findSome? (fun e => if (matchLitCI e s).isSome then some e.length else none)

/-- Greedy backtracking for `[...]+\.(?:ext)`: the class run length `k` is
tried from the maximal class run down to one; at each split the next
character must be `.` followed by an extension. -/
def mediaTryDot : Nat → List Char → Option (Nat × Nat)
  | 0, _ => none
  | Nat.succ k, s =>
    match s.drop (Nat.succ k) with
    | '.' :: t2 =>
      match matchExtCI t2 with
      | some extLen => some (Nat.succ k, extLen)
      | none => mediaTryDot k s
    | _ => mediaTryDot k s

/-- One attempted `MEDIA_URL_PATTERN` match at the head of `s`
(`https?://` with greedy optional `s`), returning the matched URL and the
remainder after the match. -/
def mediaMatchAt (s : List Char) : Option (List Char × List Char) :=
  match matchLitCI "http".data s with
  | none => none
  | some s1 =>
    let withS : Option (Nat × List Char) :=
      match s1 with
      | c :: s2 =>
        if c == 's' || c == 'S' then
          match matchLitCI "://".data s2 with
          | some s3 => some (4, s3)
          | none => none
        else none
      | [] => none
    let scheme : Option (Nat × List Char) :=
      match withS with
      | some r => some r
      | none =>
        match matchLitCI "://".data s1 with
        | some s3 => some (3, s3)
        | none => none
    match scheme with
    | none => none
    | some (extra, s3) =>
      let run := s3.takeWhile isMediaClassChar
      match mediaTryDot run.length s3 with
      | none => none
      | some (k, extLen) =>
        let total := 4 + extra + k + 1 + extLen
        some (s.take total, s.drop total)

/-- `MEDIA_URL_PATTERN.finditer`: leftmost, non-overlapping scan. -/
def mediaScanF : Nat → List Char → List (List Char)
  | 0, _ => []
  | _, [] => []
  | Nat.succ f, c :: t =>
    match mediaMatchAt (c :: t) with
    | some (url, rest) => url :: mediaScanF f rest
    | none => mediaScanF f t

/-- `XHSDownloaderAPI._extract_urls_from_html`: unescape, collect img-tag
captures passing the predicate, then bare media URLs passing the predicate
and not already collected. -/
def extract_urls_from_html (html : List Char) : List String :=
  let n := decode_unicode_sequences html
  let urls1 := ((imgScanF (n.length + 1) n).map String.mk).filter is_valid_media_url
  ((mediaScanF (n.length + 1) n).map String.mk).foldl
    (fun urls u =>
      if is_valid_media_url u && !(urls.contains u) then urls ++ [u] else urls)
    urls1

example :
    extract_urls_from_html "see https://x.com/a.jpg and https://x.com/a.jpg now".data
      = ["https://x.com/a.jpg"] := by rfl
example : extract_urls_from_html "<img src=\"https://a.xhscdn.com/pic\">".data = [] := by
  rfl
example : extract_urls_from_html "<img src=\"https://x.com/b.png\">".data
    = ["https://x.com/b.png"] := by rfl

/-! ## Value parser (`json.loads` on the normalised payload)

A strict JSON reader over the character list, faithful to `json.loads` on the
constructs the payloads can contain (the stdlib default also accepts the
constants `NaN`, `Infinity` and `-Infinity`).  Recursion is fuel-indexed;
`jsonParse` supplies ample fuel for its input. -/

/-- JSON whitespace accepted by `json.loads` between tokens. -/
def isJsonWs (c : Char) : Bool :=
  c == ' ' || c == '\t' || c == '\n' || c == '\r'

/-- Skip inter-token whitespace. -/
def skipJsonWs (s : List Char) : List Char :=
  s.dropWhile isJsonWs

/-- Body of a JSON string after the opening quote: content and remainder
after the closing quote.  Escapes are decoded as `json.loads` does; raw
control characters are rejected (strict mode). -/
def parseStringBodyF : Nat → List Char → Option (List Char × List Char)
  | 0, _ => none
  | _, [] => none
  | Nat.succ f, c :: rest =>
    if c == '"' then some ([], rest)
    else if c == '\\' then
      match rest with
      | [] => none
      | e :: rest2 =>
        if e == 'u' then
          match rest2 with
          | h1 :: h2 :: h3 :: h4 :: rest3 =>
            match hexVal h1, hexVal h2, hexVal h3, hexVal h4 with
            | some a, some b, some cc, some d =>
              (parseStringBodyF f rest3).map (fun r =>
                (Char.ofNat (hexQuad a b cc d) :: r.1, r.2))
            | _, _, _, _ => none
          | _ => none
        else
          let dec : Option Char :=
            if e == '"' then some '"'
            else if e == '\\' then some '\\'
            else if e == '/' then some '/'
            else if e == 'b' then some '\x08'
            else if e == 'f' then some '\x0c'
            else if e == 'n' then some '\n'
            else if e == 'r' then some '\r'
            else if e == 't' then some '\t'
            else none
          match dec with
          | some d => (parseStringBodyF f rest2).map (fun r => (d :: r.1, r.2))
          | none => none
    else if c.toNat < 0x20 then none
    else (parseStringBodyF f rest).map (fun r => (c :: r.1, r.2))

/-- A JSON number literal: sign, integer part (no leading zeros), optional
fraction and exponent.  Pure integers become `JValue.num`; anything with a
fraction or exponent stays an uninterpreted `JValue.fnum` literal. -/
def parseNumberL (s : List Char) : Option (JValue × List Char) :=
  let neg : Bool := s.head? == some '-'
  let s1 := if neg then s.tail else s
  let intPart := s1.takeWhile Char.isDigit
  if intPart.isEmpty then none
  else if intPart.length > 1 && intPart.head? == some '0' then none
  else
    let s2 := s1.drop intPart.length
    let fracPart :=
      match s2 with
      | '.' :: t =>
        let ds := t.takeWhile Char.isDigit
        if ds.isEmpty then none else some ('.' :: ds)
      | _ => some []
    match fracPart with
    | none => none
    | some fp =>
      let s3 := s2.drop fp.length
      let expPart : Option (List Char) :=
        match s3 with
        | e :: t =>
          if e == 'e' || e == 'E' then
            let (sgn, t2) :=
              match t with
              | '+' :: u => (['+'], u)
              | '-' :: u => (['-'], u)
              | _ => (([] : List Char), t)
            let ds := t2.takeWhile Char.isDigit
            if ds.isEmpty then none else some (e :: sgn ++ ds)
          else some []
        | [] => some []
      match expPart with
      | none => none
      | some ep =>
        let s4 := s3.drop ep.length
        if fp.isEmpty && ep.isEmpty then
          let mag : Int := Int.ofNat (intPart.foldl (fun a c => a * 10 + (c.toNat - '0'.toNat)) 0)
          some (JValue.num (if neg then -mag else mag), s4)
        else
          some (JValue.fnum (String.mk ((if neg then ['-'] else []) ++ intPart ++ fp ++ ep)), s4)

/-- CPython `dict` assignment `d[k] = v` on the ordered binding list: an
existing key keeps its position and gets the new value, a new key is appended
at the end. -/
def pyInsert : List (String × JValue) → String → JValue → List (String × JValue)
  | [], k, v => [(k, v)]
  | (k0, v0) :: rest, k, v =>
    if k0 == k then (k0, v) :: rest else (k0, v0) :: pyInsert rest k v

mutual

/-- One JSON value (fuel-indexed). -/
def parseJValue : Nat → List Char → Option (JValue × List Char)
  | 0, _ => none
  | Nat.succ f, s =>
    match skipJsonWs s with
    | [] => none
    | c :: rest =>
      if c == 'n' then
        if startsWithL "null".data (c :: rest) then some (JValue.null, (c :: rest).drop 4)
        else none
      else if c == 't' then
        if startsWithL "true".data (c :: rest) then some (JValue.bool true, (c :: rest).drop 4)
        else none
      else if c == 'f' then
        if startsWithL "false".data (c :: rest) then some (JValue.bool false, (c :: rest).drop 5)
        else none
      else if c == 'N' then
        if startsWithL "NaN".data (c :: rest) then
          some (JValue.fnum "NaN", (c :: rest).drop 3)
        else none
      else if c == 'I' then
        if startsWithL "Infinity".data (c :: rest) then
          some (JValue.fnum "Infinity", (c :: rest).drop 8)
        else none
      else if c == '-' && startsWithL "-Infinity".data (c :: rest) then
        some (JValue.fnum "-Infinity", (c :: rest).drop 9)
      else if c == '"' then
        (parseStringBodyF rest.length rest).map (fun r => (JValue.str (String.mk r.1), r.2))
      else if c == '[' then
        match skipJsonWs rest with
        | ']' :: rest2 => some (JValue.arr [], rest2)
        | _ => (parseJItems f rest).map (fun r => (JValue.arr r.1, r.2))
      else if c == '{' then
        match skipJsonWs rest with
        | '}' :: rest2 => some (JValue.obj [], rest2)
        | _ => (parseJMembers f [] rest).map (fun r => (JValue.obj r.1, r.2))
      else if c == '-' || c.isDigit then
        parseNumberL (c :: rest)
      else none

/-- Array elements after `[` (fuel-indexed), up to and including `]`. -/
def parseJItems : Nat → List Char → Option (List JValue × List Char)
  | 0, _ => none
  | Nat.succ f, s =>
    match parseJValue f s with
    | none => none
    | some (v, rest) =>
      match skipJsonWs rest with
      | ',' :: rest2 => (parseJItems f rest2).map (fun r => (v :: r.1, r.2))
      | ']' :: rest2 => some ([v], rest2)
      | _ => none

/-- Object members after `{` (fuel-indexed), up to and including `}`,
accumulating the dict built so far left-to-right via `pyInsert`. -/
def parseJMembers : Nat → List (String × JValue) → List Char →
    Option (List (String × JValue) × List Char)
  | 0, _, _ => none
  | Nat.succ f, acc, s =>
    match skipJsonWs s with
    | '"' :: rest =>
      match parseStringBodyF rest.length rest with
      | none => none
      | some (key, rest2) =>
        match skipJsonWs rest2 with
        | ':' :: rest3 =>
          match parseJValue f rest3 with
          | none => none
          | some (v, rest4) =>
            let acc2 := pyInsert acc (String.mk key) v
            match skipJsonWs rest4 with
            | ',' :: rest5 => parseJMembers f acc2 rest5
            | '}' :: rest5 => some (acc2, rest5)
            | _ => none
        | _ => none
    | _ => none

end

/-- `json.loads`: parse one value and require only whitespace afterwards. -/
def jsonParse (s : List Char) : Option JValue :=
  match parseJValue (2 * s.length + 2) s with
  | some (v, rest) => if (skipJsonWs rest).isEmpty then some v else none
  | none => none

/-! ## Media extractor (`_extract_media_from_note` and helpers) -/

/-- The media item dataclass, one constructor per `type` tag used by the
source (`video`, `image`, `live_photo`, `raw`). -/
inductive MediaItem where
  | video (url : String)
  | image (url : String)
  | live_photo (image_url video_url : String)
  | raw (url : String)

/-- `XHSDownloaderAPI._extract_video_streams` on the `video` object. -/
def extract_video_streams (videoKvs : List (String × JValue)) : List String :=
  match JValue.jgetObj (JValue.obj videoKvs) "media" with
  | some mediaKvs =>
    match JValue.jgetObj (JValue.obj mediaKvs) "stream" with
    | some streamKvs =>
      match JValue.jget (JValue.obj streamKvs) "h264" with
      | some (JValue.arr h264) =>
        h264.flatMap (fun entry =>
          match entry with
          | JValue.str s =>
            if startsWithL "http".data s.data then [s] else []
          | JValue.obj ekvs =>
            ["url", "masterUrl"].flatMap (fun k =>
              match JValue.jget (JValue.obj ekvs) k with
              | some (JValue.str v) => [v]
              | _ => [])
          | _ => [])
      | _ => []
    | none => []
  | none => []

/-- `XHSDownloaderAPI._extract_image_url`. -/
def extract_image_url (image : JValue) : Option String :=
  match JValue.jget image "urlDefault" with
  | some (JValue.str v) => some v
  | _ =>
    match JValue.jget image "url" with
    | some (JValue.str v) => some v
    | _ =>
      match JValue.jget image "traceId" with
      | some (JValue.str v) =>
        some (String.mk ("https://sns-img-qc.xhscdn.com/".data ++ v.data))
      | _ =>
        match JValue.jget image "infoList" with
        | some (JValue.arr infos) =>
          infos.findSome? (fun info =>
            match info with
            | JValue.obj ikvs =>
              match JValue.jget (JValue.obj ikvs) "url" with
              | some (JValue.str u) => some u
              | _ => none
            | _ => none)
        | _ => none

/-- `XHSDownloaderAPI._extract_live_photo_video`. -/
def extract_live_photo_video (image : JValue) : Option String :=
  match JValue.jgetObj image "stream" with
  | some streamKvs =>
    match JValue.jget (JValue.obj streamKvs) "h264" with
    | some (JValue.arr (first :: _)) =>
      match first with
      | JValue.obj fkvs =>
        match JValue.jget (JValue.obj fkvs) "masterUrl" with
        | some (JValue.str v) => some v
        | _ =>
          match JValue.jget (JValue.obj fkvs) "url" with
          | some (JValue.str v) => some v
          | _ => none
      | _ => none
    | _ => none
  | none => none

/-- The body of the `for image in image_list` loop of
`_extract_media_from_note` (lines 311–331): the media items and raw URLs this
single image appends.  Python truthiness (`if image_url:`,
`if live_photo_video_url:`, `filter(None, ...)`) treats both `None` and the
empty string as false. -/
def image_contribution (image : JValue) : List MediaItem × List String :=
  if !(JValue.isObj image) then ([], [])
  else
    match extract_image_url image with
    | some u =>
      if u.isEmpty then ([], [])
      else
        let ti := transform_xhs_cdn_url u
        match extract_live_photo_video image with
        | some lv =>
          if lv.isEmpty then ([MediaItem.image ti], [ti])
          else
            let tv := transform_xhs_cdn_url lv
            ([MediaItem.live_photo ti tv], [ti, tv].filter (fun s => !(s.isEmpty)))
        | none => ([MediaItem.image ti], [ti])
    | none => ([], [])

/-- The `image_list` resolution of `_extract_media_from_note`
(lines 302–308): `imageList`, else `images`, else a singleton around
`image`. -/
def note_image_list (note : JValue) : Option (List JValue) :=
  match JValue.jget note "imageList" with
  | some (JValue.arr l) => some l
  | _ =>
    match JValue.jget note "images" with
    | some (JValue.arr l) => some l
    | _ =>
      match JValue.jget note "image" with
      | some (JValue.obj k) => some [JValue.obj k]
      | _ => none

/-- `XHSDownloaderAPI._extract_media_from_note`. -/
def extract_media_from_note (note : JValue) : List MediaItem × List String :=
  let videoPart : List MediaItem × List String :=
    match JValue.jgetObj note "video" with
    | some videoKvs =>
      let consumerKey : Option String :=
        match JValue.jgetObj (JValue.obj videoKvs) "consumer" with
        | some consumerKvs =>
          match JValue.jget (JValue.obj consumerKvs) "originVideoKey" with
          | some (JValue.str key) => some key
          | _ => none
        | none => none
      match consumerKey with
      | some key =>
        let u := String.mk ("https://sns-video-bd.xhscdn.com/".data ++ key.data)
        ([MediaItem.video u], [u])
      | none =>
        let urls := extract_video_streams videoKvs
        (urls.map MediaItem.video, urls)
    | none => ([], [])
  let imagePart : List MediaItem × List String :=
    match note_image_list note with
    | some imgs =>
      if imgs.isEmpty then ([], [])
      else
        let contribs := imgs.map image_contribution
        (contribs.flatMap Prod.fst, contribs.flatMap Prod.snd)
    | none => ([], [])
  let media1 := videoPart.1 ++ imagePart.1
  let raw1 := videoPart.2 ++ imagePart.2
  if media1.isEmpty then
    match note with
    | JValue.obj kvs =>
      let rawFields := kvs.filterMap (fun kv =>
        match kv.2 with
        | JValue.str v => if is_valid_media_url v then some v else none
        | _ => none)
      (media1 ++ rawFields.map MediaItem.raw, raw1 ++ rawFields)
    | _ => (media1, raw1)
  else (media1, raw1)

/-- `XHSDownloaderAPI._extract_note_description`: first of `desc`,
`description`, `title` that is a non-empty string. -/
def extract_note_description (note : JValue) : Option String :=
  let tryKey := fun (k : String) =>
    match JValue.jget note k with
    | some (JValue.str v) => if !(v.isEmpty) then some v else none
    | _ => none
  (tryKey "desc").orElse (fun _ => (tryKey "description").orElse (fun _ => tryKey "title"))

/-- `XHSDownloaderAPI._extract_note_metadata`, with dict assignment order
`desc`, `title`, `noteId`, `author`, `likes`, `comments`, `tags`.  A JSON
`true`/`false` passes Python `isinstance(value, (str, int))` because `bool`
subclasses `int`. -/
def extract_note_metadata (note : JValue) : List (String × JValue) :=
  let descOpt := extract_note_description note
  let md0 : List (String × JValue) :=
    match descOpt with
    | some d => [("desc", JValue.str d)]
    | none => []
  let md1 := md0 ++
    (match JValue.jget note "title" with
     | some (JValue.str t) =>
       if !(t.isEmpty) && (match descOpt with | some d => t != d | none => true) then
         [("title", JValue.str t)]
       else []
     | _ => [])
  let md2 := md1 ++
    (match JValue.jget note "noteId" with
     | some (JValue.str nid) => [("noteId", JValue.str nid)]
     | _ => [])
  let md3 := md2 ++
    (match JValue.jgetObj note "user" with
     | some userKvs =>
       match JValue.jget (JValue.obj userKvs) "nickname" with
       | some (JValue.str nick) => [("author", JValue.str nick)]
       | _ => []
     | none => [])
  let md4 := md3 ++
    (match JValue.jgetObj note "interactInfo" with
     | some iKvs =>
       let pick := fun (src tgt : String) =>
         match JValue.jget (JValue.obj iKvs) src with
         | some (JValue.str v) => [(tgt, JValue.str v)]
         | some (JValue.num n) => [(tgt, JValue.num n)]
         | some (JValue.bool b) => [(tgt, JValue.bool b)]
         | _ => []
       pick "likedCount" "likes" ++ pick "commentCount" "comments"
     | none => [])
  md4 ++
    (match JValue.jget note "tagList" with
     | some (JValue.arr tags) =>
       let names := tags.filterMap (fun tag =>
         match tag with
         | JValue.obj tkvs =>
           match JValue.jget (JValue.obj tkvs) "name" with
           | some (JValue.str n) => some n
           | _ => none
         | _ => none)
       if names.isEmpty then [] else [("tags", JValue.arr (names.map JValue.str))]
     | _ => [])

/-! ## Note locator (`_extract_note_objects`) -/

/-- Branch 1 of the locator: for every value of `noteDetailMap`, the nested
`note` object (entries whose nested field is absent or not an object are
skipped). -/
def detailMapNotes (m : List (String × JValue)) : List JValue :=
  m.filterMap (fun kv =>
    match kv.2 with
    | JValue.obj vkvs =>
      match JValue.jget (JValue.obj vkvs) "note" with
      | some (JValue.obj nkvs) => some (JValue.obj nkvs)
      | _ => none
    | _ => none)

/-- The `items` handling shared by the two `feed` branches: every element of
an `items` array that is an object; nothing when `items` is missing or not an
array (the generator `return`s without yielding in either case). -/
def feedItemsNotes (fkvs : List (String × JValue)) : List JValue :=
  match JValue.jget (JValue.obj fkvs) "items" with
  | some (JValue.arr items) => items.filter JValue.isObj
  | _ => []

/-- Branch 6: scan the root's direct values for objects containing any of the
keys `note`, `imageList`, `images`, `video`. -/
def topLevelScan (kvs : List (String × JValue)) : List JValue :=
  kvs.filterMap (fun kv =>
    match kv.2 with
    | JValue.obj vkvs =>
      if ["note", "imageList", "images", "video"].any (JValue.hasKey vkvs) then
        some (JValue.obj vkvs)
      else none
    | _ => none)

/-- Branches 5–6, reached when no `note`-rooted branch fired. -/
def rootFeedOrScan (kvs : List (String × JValue)) : List JValue :=
  match JValue.jgetObj (JValue.obj kvs) "feed" with
  | some fkvs => feedItemsNotes fkvs
  | none => topLevelScan kvs

/-- `XHSDownloaderAPI._extract_note_objects`, with the generator's yields
collected in order.  Note the `feed` branch: as in the source, once
`note_root["feed"]` is a dict the generator returns, whether or not `items`
is a list. -/
def extract_note_objects (root : JValue) : List JValue :=
  match root with
  | JValue.obj kvs =>
    match JValue.jgetObj root "note" with
    | some nkvs =>
      match JValue.jgetObj (JValue.obj nkvs) "noteDetailMap" with
      | some m => detailMapNotes m
      | none =>
        match JValue.jgetObj (JValue.obj nkvs) "note" with
        | some nested => [JValue.obj nested]
        | none =>
          match JValue.jgetObj (JValue.obj nkvs) "feed" with
          | some fkvs => feedItemsNotes fkvs
          | none =>
            if JValue.hasKey nkvs "imageList" || JValue.hasKey nkvs "video" then
              [JValue.obj nkvs]
            else rootFeedOrScan kvs
    | none => rootFeedOrScan kvs
  | _ => []

/-! ## Parsing entry point (`_parse_post_details`) -/

/-- The per-note result dataclass `NoteResult`. -/
structure NoteResult where
  metadata : List (String × JValue)
  media : List MediaItem
  raw_media_urls : List String

/-- The `for note in note_objects` loop of `_parse_post_details`: a
`NoteResult` is kept only when it carries media items or raw URLs. -/
def buildNotes (root : JValue) : List NoteResult :=
  (extract_note_objects root).filterMap (fun note =>
    let mr := extract_media_from_note note
    if !(mr.1.isEmpty) || !(mr.2.isEmpty) then
      some ⟨extract_note_metadata note, mr.1, mr.2⟩
    else none)

/-- The embedded-state marker. -/
def initialStateMarker : List Char := "window.__INITIAL_STATE__=".data

/-- The closing tag searched after the marker. -/
def scriptCloseTag : List Char := "</script>".data

/-- The payload slicing of `_parse_post_details` (lines 195–204): `none` when
the marker, the closing tag after it, or the `=` inside the slice is missing;
otherwise the stripped payload with a trailing `;` removed. -/
def payloadOf (html : List Char) : Option (List Char) :=
  match findSubL html initialStateMarker with
  | none => none
  | some si =>
    match findSubFromL html scriptCloseTag si with
    | none => none
    | some ei =>
      let scriptContent := (html.take ei).drop si
      match findSubL scriptContent "=".data with
      | none => none
      | some eq =>
        let p := stripWsL (scriptContent.drop (eq + 1))
        some (if p.getLast? == some ';' then p.dropLast else p)

/-- `_parse_post_details` before the final deduplication: the structured path
runs only when the marker is present; the fallback scan feeds `fallback_urls`
only when the marker is absent or the payload fails to parse. -/
def parsePostDetailsCore (html : List Char) : List NoteResult × List String :=
  if (findSubL html initialStateMarker).isSome then
    match payloadOf html with
    | some payload =>
      match jsonParse (normalise_json_payloadL payload) with
      | some root => (buildNotes root, [])
      | none => ([], extract_urls_from_html html)
    | none => ([], [])
  else ([], extract_urls_from_html html)

/-- `XHSDownloaderAPI._parse_post_details`: the core result with fallback
URLs deduplicated (the `if fallback_urls:` guard of lines 227–234). -/
def parse_post_details (html : List Char) : List NoteResult × List String :=
  let res := parsePostDetailsCore html
  (res.1, if res.2.isEmpty then res.2 else dedupFirst res.2)

/-! ## Lemmas about the deduplication loop -/

theorem mem_dedupAux (a : String) (l seen : List String) :
    a ∈ dedupAux seen l ↔ a ∈ l ∧ a ∉ seen := by
  induction l generalizing seen with
  | nil => simp [dedupAux]
  | cons x xs ih =>
    by_cases hx : x ∈ seen
    · rw [dedupAux, if_pos hx]
      rw [ih]
      constructor
      · rintro ⟨h1, h2⟩
        exact ⟨List.mem_cons_of_mem x h1, h2⟩
      · rintro ⟨h1, h2⟩
        rcases List.mem_cons.mp h1 with h1 | h1
        · exact absurd (h1 ▸ hx) h2
        · exact ⟨h1, h2⟩
    · rw [dedupAux, if_neg hx]
      rw [List.mem_cons, ih]
      constructor
      · rintro (h | ⟨h1, h2⟩)
        · exact ⟨h ▸ List.mem_cons_self x xs, h ▸ hx⟩
        · exact ⟨List.mem_cons_of_mem x h1, fun hs => h2 (List.mem_cons_of_mem x hs)⟩
      · rintro ⟨h1, h2⟩
        rcases List.mem_cons.mp h1 with h1 | h1
        · exact Or.inl h1
        · by_cases hax : a = x
          · exact Or.inl hax
          · exact Or.inr ⟨h1, fun hs => by
              rcases List.mem_cons.mp hs with hs | hs
              exacts [hax hs, h2 hs]⟩

theorem nodup_dedupAux (l seen : List String) : (dedupAux seen l).Nodup := by
  induction l generalizing seen with
  | nil => simp [dedupAux]
  | cons x xs ih =>
    by_cases hx : x ∈ seen
    · rw [dedupAux, if_pos hx]; exact ih seen
    · rw [dedupAux, if_neg hx]
      refine List.Nodup.cons ?_ (ih (x :: seen))
      intro hmem
      exact ((mem_dedupAux x xs (x :: seen)).mp hmem).2 (List.mem_cons_self x seen)

theorem sublist_dedupAux (l seen : List String) : (dedupAux seen l).Sublist l := by
  induction l generalizing seen with
  | nil => simp [dedupAux]
  | cons x xs ih =>
    by_cases hx : x ∈ seen
    · rw [dedupAux, if_pos hx]; exact (ih seen).cons x
    · rw [dedupAux, if_neg hx]; exact (ih (x :: seen)).cons₂ x

theorem pairwise_indexOf_dedupAux (l seen : List String) :
    (dedupAux seen l).Pairwise (fun a b => l.indexOf a < l.indexOf b) := by
  induction l generalizing seen with
  | nil => simp [dedupAux]
  | cons x xs ih =>
    by_cases hx : x ∈ seen
    · rw [dedupAux, if_pos hx]
      refine (ih seen).imp_of_mem ?_
      intro a b ha hb hlt
      have hax : x ≠ a := fun h => ((mem_dedupAux a xs seen).mp ha).2 (h ▸ hx)
      have hbx : x ≠ b := fun h => ((mem_dedupAux b xs seen).mp hb).2 (h ▸ hx)
      rw [List.indexOf_cons_ne xs hax, List.indexOf_cons_ne xs hbx]
      exact Nat.succ_lt_succ hlt
    · rw [dedupAux, if_neg hx]
      refine List.Pairwise.cons ?_ ?_
      · intro b hb
        have hbm := (mem_dedupAux b xs (x :: seen)).mp hb
        have hbx : x ≠ b := fun h => hbm.2 (h ▸ List.mem_cons_self x seen)
        rw [List.indexOf_cons_self, List.indexOf_cons_ne xs hbx]
        exact Nat.succ_pos _
      · refine (ih (x :: seen)).imp_of_mem ?_
        intro a b ha hb hlt
        have hax : x ≠ a :=
          fun h => ((mem_dedupAux a xs (x :: seen)).mp ha).2 (h ▸ List.mem_cons_self x seen)
        have hbx : x ≠ b :=
          fun h => ((mem_dedupAux b xs (x :: seen)).mp hb).2 (h ▸ List.mem_cons_self x seen)
        rw [List.indexOf_cons_ne xs hax, List.indexOf_cons_ne xs hbx]
        exact Nat.succ_lt_succ hlt

/-! ## Totality of the normalizer scan -/

theorem findTokenMatch_length_pos (prev : Option Char) (s : List Char)
    (tr : List Char × List Char) (h : findTokenMatch prev s = some tr) :
    1 ≤ tr.1.length := by
  have hm := List.mem_of_find?_eq_some h
  simp only [normTokens, List.mem_cons, List.not_mem_nil, or_false] at hm
  rcases hm with h | h | h | h | h <;> subst h <;> decide

theorem isSome_omap {a b : Type} (g : a → b) (o : Option a)
    (h : o.isSome = true) : (o.map g).isSome = true := by
  cases o with
  | none => simp at h
  | some v => rfl

theorem normScan_total (fuel : Nat) :
    ∀ (rest : List Char), rest.length ≤ fuel →
      ∀ (inStr esc : Bool) (q : Char) (prev : Option Char),
        (normScan fuel inStr esc q prev rest).isSome = true := by
  induction fuel with
  | zero =>
    intro rest h inStr esc q prev
    cases rest with
    | nil => rfl
    | cons c t => simp at h
  | succ f ih =>
    intro rest h inStr esc q prev
    cases rest with
    | nil => rfl
    | cons c t =>
      have ht : t.length ≤ f := by
        simp only [List.length_cons] at h
        omega
      rw [normScan]
      by_cases hs : inStr
      · rw [if_pos hs]
        exact isSome_omap _ _ (ih t ht _ _ q (some c))
      · rw [if_neg hs]
        by_cases hq : (c == '"' || c == '\'') = true
        · rw [if_pos hq]
          exact isSome_omap _ _ (ih t ht true esc c (some c))
        · rw [if_neg hq]
          cases htok : findTokenMatch prev (c :: t) with
          | none => exact isSome_omap _ _ (ih t ht false esc q (some c))
          | some tr =>
            obtain ⟨tok, repl⟩ := tr
            have hlen : ((c :: t).drop tok.length).length ≤ f := by
              have h1 := findTokenMatch_length_pos prev (c :: t) (tok, repl) htok
              simp only [List.length_drop, List.length_cons]
              simp only at h1
              omega
            exact isSome_omap _ _ (ih _ hlen false esc q tok.getLast?)

/-! ## Claim C5 — canonicalizer idempotence -/

theorem transform_id_of_not_contains (s : String)
    (h : containsSub s "xhscdn.com" = false) : transform_xhs_cdn_url s = s := by
  unfold transform_xhs_cdn_url
  simp [h]

/-- C5 counterexample: on a URL whose retained path segments themselves
contain `xhscdn.com`, the canonicalizer is not idempotent — the first pass
yields `https://ci.xiaohongshu.com/d/xhscdn.com/e`, which the second pass
rewrites again to `https://ci.xiaohongshu.com/e`. -/
theorem C5_not_idempotent_counterexample :
    transform_xhs_cdn_url "https://a.xhscdn.com/b/c/d/xhscdn.com/e"
        = "https://ci.xiaohongshu.com/d/xhscdn.com/e"
    ∧ transform_xhs_cdn_url "https://ci.xiaohongshu.com/d/xhscdn.com/e"
        = "https://ci.xiaohongshu.com/e"
    ∧ transform_xhs_cdn_url
          (transform_xhs_cdn_url "https://a.xhscdn.com/b/c/d/xhscdn.com/e")
        ≠ transform_xhs_cdn_url "https://a.xhscdn.com/b/c/d/xhscdn.com/e" := by
  refine ⟨by rfl, by rfl, ?_⟩
  intro h
  rw [show transform_xhs_cdn_url "https://a.xhscdn.com/b/c/d/xhscdn.com/e"
      = "https://ci.xiaohongshu.com/d/xhscdn.com/e" from rfl] at h
  rw [show transform_xhs_cdn_url "https://ci.xiaohongshu.com/d/xhscdn.com/e"
      = "https://ci.xiaohongshu.com/e" from rfl] at h
  simp at h

/-- C5 (amended): applying the canonicalizer twice agrees with applying it
once for every URL `u` such that the first application either leaves `u`
unchanged or produces a result no longer containing `xhscdn.com`; the
remaining URLs (rewrites whose retained path token still contains
`xhscdn.com`) are rewritten again, as the counterexample shows. -/
theorem C5_idempotent_amended (u : String)
    (h : containsSub (transform_xhs_cdn_url u) "xhscdn.com" = false
        ∨ transform_xhs_cdn_url u = u) :
    transform_xhs_cdn_url (transform_xhs_cdn_url u) = transform_xhs_cdn_url u := by
  rcases h with h | h
  · exact transform_id_of_not_contains _ h
  · rw [h, h]

/-- C5 witness: the amended idempotence applies e.g. to the sample CDN image
URL, whose canonical form no longer mentions `xhscdn.com`. -/
theorem C5_idempotent_witness :
    (containsSub
        (transform_xhs_cdn_url
          "https://sns-img-qc.xhscdn.com/20231111/foo/1040gfoobar!nd_dft_webp")
        "xhscdn.com" = false
      ∨ transform_xhs_cdn_url
            "https://sns-img-qc.xhscdn.com/20231111/foo/1040gfoobar!nd_dft_webp"
          = "https://sns-img-qc.xhscdn.com/20231111/foo/1040gfoobar!nd_dft_webp")
    ∧ transform_xhs_cdn_url
          (transform_xhs_cdn_url
            "https://sns-img-qc.xhscdn.com/20231111/foo/1040gfoobar!nd_dft_webp")
        = transform_xhs_cdn_url
            "https://sns-img-qc.xhscdn.com/20231111/foo/1040gfoobar!nd_dft_webp" :=
  ⟨Or.inl (by rfl), C5_idempotent_amended _ (Or.inl (by rfl))⟩

/-! ## Claim C6 — normalizer totality -/

/-- C6: the normalizer is total.  For every input string, the scan loop of
`_normalise_json_payload`, run with fuel equal to the (pre-passed) payload
length, terminates with a result — it never runs out of fuel, gets stuck, or
indexes out of bounds — and `normalise_json_payload` returns either the
fast-path input itself or that scan result (the unreachable fuel default is
never taken). -/
theorem C6_normaliser_total (p : String) :
    ∃ out : List Char,
      normScan (invalidJsonSub p.data).length false false '"' none
          (invalidJsonSub p.data) = some out
      ∧ (normalise_json_payloadL p.data = p.data
          ∨ normalise_json_payloadL p.data = out) := by
  obtain ⟨out, hout⟩ :=
    Option.isSome_iff_exists.mp
      (normScan_total (invalidJsonSub p.data).length (invalidJsonSub p.data)
        (le_refl _) false false '"' none)
  refine ⟨out, hout, ?_⟩
  unfold normalise_json_payloadL
  by_cases hfast :
      (!(containsSubL p.data "undefined".data)
        && !(containsSubL p.data "Infinity".data)
        && !(containsSubL p.data "NaN".data)) = true
  · rw [if_pos hfast]
    exact Or.inl rfl
  · rw [if_neg hfast]
    simp only [hout, Option.getD_some]
    exact Or.inr trivial

/-! ## Claim C7 — note locator precedence -/

/-- C7: when the parsed root satisfies both the branch-1 shape
(`root.note.noteDetailMap` an object) and the branch-3 shape
(`root.note.feed.items` an array), the locator returns exactly the
`noteDetailMap` branch notes, so nothing from `feed.items` is yielded by the
`feed` branch. -/
theorem C7_locator_precedence
    (kvs nkvs m fkvs : List (String × JValue)) (items : List JValue)
    (hnote : JValue.jgetObj (JValue.obj kvs) "note" = some nkvs)
    (hmap : JValue.jgetObj (JValue.obj nkvs) "noteDetailMap" = some m)
    (hfeed : JValue.jgetObj (JValue.obj nkvs) "feed" = some fkvs)
    (hitems : JValue.jget (JValue.obj fkvs) "items" = some (JValue.arr items)) :
    extract_note_objects (JValue.obj kvs) = detailMapNotes m := by
  simp only [extract_note_objects, hnote, hmap]

/-- C7 witness: a concrete root carrying both shapes resolves via the
`noteDetailMap` branch only. -/
theorem C7_locator_precedence_witness :
    JValue.jgetObj
        (JValue.obj
          [("note",
            JValue.obj
              [("noteDetailMap",
                JValue.obj
                  [("k", JValue.obj [("note", JValue.obj [("noteId", JValue.str "n1")])])]),
               ("feed",
                JValue.obj [("items", JValue.arr [JValue.obj [("id", JValue.str "f1")]])])])])
        "note"
        = some
            [("noteDetailMap",
              JValue.obj
                [("k", JValue.obj [("note", JValue.obj [("noteId", JValue.str "n1")])])]),
             ("feed",
              JValue.obj [("items", JValue.arr [JValue.obj [("id", JValue.str "f1")]])])]
    ∧ extract_note_objects
        (JValue.obj
          [("note",
            JValue.obj
              [("noteDetailMap",
                JValue.obj
                  [("k", JValue.obj [("note", JValue.obj [("noteId", JValue.str "n1")])])]),
               ("feed",
                JValue.obj [("items", JValue.arr [JValue.obj [("id", JValue.str "f1")]])])])])
        = detailMapNotes
            [("k", JValue.obj [("note", JValue.obj [("noteId", JValue.str "n1")])])] :=
  ⟨by rfl,
    C7_locator_precedence _ _ _
      [("items", JValue.arr [JValue.obj [("id", JValue.str "f1")]])]
      [JValue.obj [("id", JValue.str "f1")]]
      (by rfl) (by rfl) (by rfl) (by rfl)⟩

/-! ## Claim C8 — fallback URL list invariant -/

/-- C8: for every input document, the returned `fallback_urls` list has no
duplicates and lists exactly the scanned URLs (the pre-deduplication list of
`_parse_post_details`) in strictly increasing order of first occurrence. -/
theorem C8_fallback_urls_invariant (html : List Char) :
    ((parse_post_details html).2).Nodup
    ∧ ((parse_post_details html).2).Sublist (parsePostDetailsCore html).2
    ∧ (∀ u, u ∈ (parse_post_details html).2 ↔ u ∈ (parsePostDetailsCore html).2)
    ∧ ((parse_post_details html).2).Pairwise
        (fun a b => (parsePostDetailsCore html).2.indexOf a
            < (parsePostDetailsCore html).2.indexOf b) := by
  have h2 : (parse_post_details html).2
      = (if (parsePostDetailsCore html).2.isEmpty then (parsePostDetailsCore html).2
         else dedupFirst (parsePostDetailsCore html).2) := rfl
  rw [h2]
  generalize (parsePostDetailsCore html).2 = raw
  by_cases he : raw.isEmpty
  · rw [if_pos he]
    rw [List.isEmpty_iff] at he
    subst he
    refine ⟨List.nodup_nil, List.Sublist.refl _, fun u => Iff.rfl, List.Pairwise.nil⟩
  · rw [if_neg he]
    refine ⟨nodup_dedupAux raw [], sublist_dedupAux raw [], ?_, pairwise_indexOf_dedupAux raw []⟩
    intro u
    rw [dedupFirst, mem_dedupAux]
    simp

/-! ## Claim C1 — note locator branch 4 -/

theorem feedItemsNotes_eq_nil (fkvs : List (String × JValue))
    (h : ∀ its : List JValue,
        JValue.jget (JValue.obj fkvs) "items" ≠ some (JValue.arr its)) :
    feedItemsNotes fkvs = [] := by
  unfold feedItemsNotes
  cases hj : JValue.jget (JValue.obj fkvs) "items" with
  | none => rfl
  | some v => cases v <;> first | rfl | exact absurd hj (h _)

/-- C1 counterexample: a root whose `note` carries `feed` as an (empty)
object and the key `imageList`.  All of the claim's preconditions hold —
`noteDetailMap` is not an object, the nested `note` is not an object,
`feed.items` is not an array (it is missing), and `imageList` is present —
yet the locator yields nothing rather than `root.note`, because the source
`return`s as soon as `note_root["feed"]` is a dict. -/
theorem C1_feed_object_counterexample :
    JValue.jgetObj
        (JValue.obj
          [("note", JValue.obj [("feed", JValue.obj []), ("imageList", JValue.arr [])])])
        "note" = some [("feed", JValue.obj []), ("imageList", JValue.arr [])]
    ∧ JValue.jgetObj
        (JValue.obj [("feed", JValue.obj []), ("imageList", JValue.arr [])])
        "noteDetailMap" = none
    ∧ JValue.jgetObj
        (JValue.obj [("feed", JValue.obj []), ("imageList", JValue.arr [])])
        "note" = none
    ∧ JValue.jget (JValue.obj ([] : List (String × JValue))) "items" = none
    ∧ JValue.hasKey [("feed", JValue.obj []), ("imageList", JValue.arr [])]
        "imageList" = true
    ∧ extract_note_objects
        (JValue.obj
          [("note", JValue.obj [("feed", JValue.obj []), ("imageList", JValue.arr [])])])
        = []
    ∧ extract_note_objects
        (JValue.obj
          [("note", JValue.obj [("feed", JValue.obj []), ("imageList", JValue.arr [])])])
        ≠ [JValue.obj [("feed", JValue.obj []), ("imageList", JValue.arr [])]] := by
  refine ⟨by rfl, by rfl, by rfl, by rfl, by rfl, by rfl, ?_⟩
  intro h
  rw [show extract_note_objects
      (JValue.obj
        [("note", JValue.obj [("feed", JValue.obj []), ("imageList", JValue.arr [])])])
      = [] from rfl] at h
  exact List.noConfusion h

/-- C1 (amended): branch 4 fires only when `root.note.feed` is not an object.
If branches 1–3's lookups fail as in the claim and `root.note` carries
`imageList` or `video`, then: with `feed` absent or not an object the locator
yields `root.note` alone, but with `feed` an object whose `items` is missing
or not an array the locator yields nothing at all. -/
theorem C1_branch4_amended (kvs nkvs : List (String × JValue))
    (hnote : JValue.jgetObj (JValue.obj kvs) "note" = some nkvs)
    (hmap : JValue.jgetObj (JValue.obj nkvs) "noteDetailMap" = none)
    (hnested : JValue.jgetObj (JValue.obj nkvs) "note" = none)
    (hkeys : (JValue.hasKey nkvs "imageList" || JValue.hasKey nkvs "video") = true)
    (hfeed : JValue.jgetObj (JValue.obj nkvs) "feed" = none
        ∨ ∃ fkvs, JValue.jgetObj (JValue.obj nkvs) "feed" = some fkvs
            ∧ ∀ its : List JValue,
                JValue.jget (JValue.obj fkvs) "items" ≠ some (JValue.arr its)) :
    extract_note_objects (JValue.obj kvs)
      = (match JValue.jgetObj (JValue.obj nkvs) "feed" with
         | some _ => []
         | none => [JValue.obj nkvs]) := by
  rcases hfeed with hf | ⟨fkvs, hf, hni⟩
  · simp only [extract_note_objects, hnote, hmap, hnested, hf, hkeys, if_true]
  · simp only [extract_note_objects, hnote, hmap, hnested, hf,
      feedItemsNotes_eq_nil fkvs hni]

/-- C1 witness: with `feed` absent, branch 4 yields `root.note` itself. -/
theorem C1_branch4_witness :
    JValue.jgetObj (JValue.obj [("note", JValue.obj [("imageList", JValue.arr [])])])
        "note" = some [("imageList", JValue.arr [])]
    ∧ extract_note_objects
        (JValue.obj [("note", JValue.obj [("imageList", JValue.arr [])])])
        = [JValue.obj [("imageList", JValue.arr [])]] :=
  ⟨by rfl,
    C1_branch4_amended [("note", JValue.obj [("imageList", JValue.arr [])])]
      [("imageList", JValue.arr [])]
      (by rfl) (by rfl) (by rfl) (by rfl) (Or.inl (by rfl))⟩

/-! ## Claim C3 — fallback on empty structured result -/

theorem payloadOf_marker_present (html p : List Char) (h : payloadOf html = some p) :
    (findSubL html initialStateMarker).isSome = true := by
  unfold payloadOf at h
  cases hm : findSubL html initialStateMarker with
  | none => rw [hm] at h; exact Option.noConfusion h
  | some si => rfl

/-- C3 counterexample document: a bare media URL followed by an embedded
state payload that parses to the empty object. -/
def c3html : List Char :=
  "https://x.com/a.jpg<script>window.__INITIAL_STATE__=\x7b\x7d</script>".data

/-- C3 counterexample: on `c3html` the marker is present, the payload `{}`
normalises and parses successfully, and zero usable notes are produced — yet
`_parse_post_details` returns no fallback URLs at all, although the Fallback
Scanner, had it been run, would have recovered `https://x.com/a.jpg`.  The
fallback is therefore not engaged on an empty structured result. -/
theorem C3_zero_notes_no_fallback_counterexample :
    payloadOf c3html = some "\x7b\x7d".data
    ∧ jsonParse (normalise_json_payloadL "\x7b\x7d".data) = some (JValue.obj [])
    ∧ buildNotes (JValue.obj []) = []
    ∧ parse_post_details c3html = ([], [])
    ∧ extract_urls_from_html c3html = ["https://x.com/a.jpg"] :=
  ⟨by rfl, by rfl, by rfl, by rfl, by rfl⟩

/-- C3 (amended): when the embedded-state marker is present and the
normalised payload parses successfully as JSON but zero usable note records
are produced, the Fallback Scanner is *not* run: both the notes and the
fallback URL list come back empty.  The scanner runs only when the marker is
absent or the payload fails to parse. -/
theorem C3_fallback_condition_amended (html p : List Char) (root : JValue)
    (hp : payloadOf html = some p)
    (hroot : jsonParse (normalise_json_payloadL p) = some root)
    (hnotes : buildNotes root = []) :
    parse_post_details html = ([], []) := by
  have hm := payloadOf_marker_present html p hp
  unfold parse_post_details parsePostDetailsCore
  rw [if_pos hm, hp]
  simp only [hroot, hnotes]
  rfl

/-- C3 witness: the amended statement applied to the counterexample
document. -/
theorem C3_fallback_condition_witness :
    payloadOf c3html = some "\x7b\x7d".data
    ∧ jsonParse (normalise_json_payloadL "\x7b\x7d".data) = some (JValue.obj [])
    ∧ buildNotes (JValue.obj []) = []
    ∧ parse_post_details c3html = ([], []) :=
  ⟨by rfl, by rfl, by rfl,
    C3_fallback_condition_amended c3html "\x7b\x7d".data (JValue.obj [])
      (by rfl) (by rfl) (by rfl)⟩

/-! ## Claim C2 — in-string token preservation (code bug) -/

/-- C2: evaluation of the normalizer at the failing input
`{"a": "x: NaN"}`.  The regex pre-pass `INVALID_JSON_VALUE_PATTERN.sub` runs
before the string-aware scan and is oblivious to string boundaries, so the
token `NaN` occurring *inside* a quoted string literal, preceded by a colon
and whitespace, is rewritten to `null` — the string literal is not preserved
character-for-character.  (The scan loop alone does preserve it: the same
token with no preceding colon survives, third conjunct.) -/
theorem C2_in_string_token_rewritten :
    normalise_json_payload "\x7b\"a\": \"x: NaN\"\x7d" = "\x7b\"a\": \"x: null\"\x7d"
    ∧ normalise_json_payload "\x7b\"a\": \"x: NaN\"\x7d" ≠ "\x7b\"a\": \"x: NaN\"\x7d"
    ∧ normalise_json_payload "\x7b\"a\": \"x NaN\"\x7d" = "\x7b\"a\": \"x NaN\"\x7d" := by
  refine ⟨by rfl, ?_, by rfl⟩
  intro h
  rw [show normalise_json_payload "\x7b\"a\": \"x: NaN\"\x7d"
      = "\x7b\"a\": \"x: null\"\x7d" from rfl] at h
  simp at h

/-! ## Claim C4 — img-tag scan (code bug) -/

/-- C4 failing input: an ordinary img tag whose src URL passes the media-URL
predicate but does not end in a media extension. -/
def c4html : List Char := "<img src=\"https://a.xhscdn.com/pic\">".data

/-- C4: evaluation at the failing input.  `IMG_TAG_PATTERN` is compiled from
a raw string containing `\\s`, so the pattern demands a *literal backslash*
between `src` and `=`; an ordinary `<img src="...">` tag never matches, the
URL is not captured (and the bare-URL scan does not recover it since it ends
in no media extension), and the document yields no fallback URLs at all —
against the claim that the URL appears in `fallback_urls`.  The last conjunct
shows the compiled pattern does match once literal backslashes are present,
confirming the model of the quirk. -/
theorem C4_img_scan_dead :
    is_valid_media_url "https://a.xhscdn.com/pic" = true
    ∧ extract_urls_from_html c4html = []
    ∧ parse_post_details c4html = ([], [])
    ∧ extract_urls_from_html "<img a src\\=\\\"https://a.xhscdn.com/pic\\\">".data
        = ["https://a.xhscdn.com/pic\\"] :=
  ⟨by rfl, by rfl, by rfl, by rfl⟩

/-! ## Claim C9 — end-to-end fixture -/

/-- The sample fixture document: an HTML page embedding
`note.noteDetailMap.abc.note` with `noteId` `"abc"` and one `imageList` entry,
plus fields valued `undefined`, `+Infinity`, `-Infinity`, `NaN` elsewhere. -/
def fixtureHtml : List Char :=
  ("<html><script>window.__INITIAL_STATE__=\x7b\"note\":\x7b\"noteDetailMap\":\x7b\"abc\":"
    ++ "\x7b\"note\":\x7b\"noteId\":\"abc\",\"imageList\":[\x7b\"urlDefault\":"
    ++ "\"https://sns-img-qc.xhscdn.com/20231111/foo/1040gfoobar!nd_dft_webp\"\x7d]\x7d\x7d\x7d\x7d,"
    ++ "\"g\":\x7b\"a\":undefined,\"b\":+Infinity,\"c\":-Infinity,\"d\":NaN\x7d\x7d</script></html>").data

set_option maxRecDepth 10000 in
/-- C9: on the fixture document, structured parsing succeeds with no fallback
engaged, exactly one note is returned, its metadata holds `noteId = "abc"`
(and nothing else), and its media is exactly one image item whose canonical
URL is `https://ci.xiaohongshu.com/1040gfoobar`. -/
theorem C9_end_to_end_fixture :
    parse_post_details fixtureHtml =
      ([⟨[("noteId", JValue.str "abc")],
         [MediaItem.image "https://ci.xiaohongshu.com/1040gfoobar"],
         ["https://ci.xiaohongshu.com/1040gfoobar"]⟩], []) := by
  rfl

/-! ## Claim C10 — live-photo video without an image URL -/

/-- C10 image: no `urlDefault`/`url`/`traceId`/`infoList`, but a resolvable
live-photo video URL in `stream.h264[0]`. -/
def c10img : JValue :=
  JValue.obj
    [("stream",
      JValue.obj
        [("h264", JValue.arr [JValue.obj [("url", JValue.str "http://v.mp4")]])])]

/-- C10 note: the image above, together with a `video` object whose stream
list carries the *same* URL. -/
def c10note : JValue :=
  JValue.obj
    [("imageList", JValue.arr [c10img]),
     ("video",
      JValue.obj
        [("media",
          JValue.obj
            [("stream",
              JValue.obj [("h264", JValue.arr [JValue.str "http://v.mp4"])])])])]

/-- C10 counterexample: the image resolves no image URL and its live-photo
URL `http://v.mp4` is resolvable, and the image itself contributes nothing —
but the claim's final conjunct ("that video URL appears neither in `media`
nor in `raw_urls`") fails, because the note's video rule emits the very same
URL: it does appear in `raw_urls` (and in `media` as a video item). -/
theorem C10_live_url_collision_counterexample :
    extract_image_url c10img = none
    ∧ extract_live_photo_video c10img = some "http://v.mp4"
    ∧ image_contribution c10img = ([], [])
    ∧ (extract_media_from_note c10note).2 = ["http://v.mp4"]
    ∧ "http://v.mp4" ∈ (extract_media_from_note c10note).2 :=
  ⟨by rfl, by rfl, by rfl, by rfl, by
    rw [show (extract_media_from_note c10note).2 = ["http://v.mp4"] from rfl]
    exact List.mem_cons_self _ _⟩

/-- C10 (amended): an image in the note's image list for which no image URL
resolves contributes no media item and no raw URL — in particular its
resolvable live-photo video URL is not emitted on account of that image —
though the same URL may still reach `media`/`raw_urls` through other rules
(e.g. the note's own video streams), as the counterexample shows. -/
theorem C10_no_contribution_amended (image : JValue) (v : String)
    (hurl : extract_image_url image = none)
    (hlive : extract_live_photo_video image = some v) :
    image_contribution image = ([], []) := by
  unfold image_contribution
  split
  · rfl
  · rw [hurl]

/-- C10 witness: the amended statement applied to the concrete image. -/
theorem C10_no_contribution_witness :
    extract_image_url c10img = none
    ∧ extract_live_photo_video c10img = some "http://v.mp4"
    ∧ image_contribution c10img = ([], []) :=
  ⟨by rfl, by rfl,
    C10_no_contribution_amended c10img "http://v.mp4" (by rfl) (by rfl)⟩
